import Mathlib

/- Shallow embedding of the notification-scheme reconciliation engine of the
   Jira adapter: the notification events module (identity keys, canonical
   projection, event diff, deploy loop, Joi shape validation) and the
   notification scheme deployment filter (deploy short-circuit, preDeploy and
   onDeploy transforms).

   Modelling conventions: a TypeScript field that can be `undefined` becomes an
   `Option`; JavaScript string templating renders an absent value as the text
   "undefined"; untyped JSON payloads (validator inputs, read-back responses)
   are the `JsVal` inductive; numeric identifiers are `Nat` when the code only
   moves them around, and the small `IdVal` type where the code coerces with
   `Number(...)`. -/

/- ===================== basic value helpers ===================== -/

def optStr : Option String → String
  | none => "undefined"
  | some s => s

def optNatStr : Option Nat → String
  | none => "undefined"
  | some n => toString n

inductive IdVal where
  | num (n : Int)
  | str (s : String)
  | nan
deriving DecidableEq, Repr

def idValStr : IdVal → String
  | .num n => toString n
  | .str s => s
  | .nan => "NaN"

def optIdStr : Option IdVal → String
  | none => "undefined"
  | some v => idValStr v

/- Association lists model plain JavaScript objects used as maps
   (string keys, insertion order preserved, at most one entry per key). -/

def assocGet {α : Type} : List (String × α) → String → Option α
  | [], _ => none
  | (k2, v) :: rest, k => if k2 == k then some v else assocGet rest k

def assocSet {α : Type} : List (String × α) → String → α → List (String × α)
  | [], k, v => [(k, v)]
  | (k2, v2) :: rest, k, v =>
    if k2 == k then (k2, v) :: rest else (k2, v2) :: assocSet rest k v

def assocDelete {α : Type} : List (String × α) → String → List (String × α)
  | [], _ => []
  | (k2, v2) :: rest, k =>
    if k2 == k then rest else (k2, v2) :: assocDelete rest k

/- ===================== declarative data model ===================== -/

/- A declarative notification descriptor as held on the scheme instance.
   After fetch it carries `type`; while a deploy is in flight (after the
   preDeploy filter ran) it can carry `notificationType` as well. -/
structure SchemeNotification where
  type : Option String
  notificationType : Option String
  parameter : Option String
  id : Option Nat
deriving DecidableEq, Repr

structure SchemeEvent where
  eventType : Option Nat
  notifications : Option (List SchemeNotification)
deriving DecidableEq, Repr

/- The values of a notification scheme instance; `notificationIds` is the
   identifier map from identity key to remote-assigned notification id
   (a recorded value can itself be undefined, hence `Option Nat`). -/
structure SchemeValues where
  id : Option IdVal
  notificationSchemeEvents : Option (List SchemeEvent)
  notificationIds : Option (List (String × Option Nat))
deriving DecidableEq, Repr

/- The flattened per-(event, notification) projection `EventValues`. -/
structure EventValues where
  eventType : Option Nat
  type : Option String
  parameter : Option String
  id : Option Nat
deriving DecidableEq, Repr

/- `getEventKey` of the source: the template literal
   eventType + "-" + type + "-" + parameter, an absent field printing as
   "undefined".  Parameters are modelled by their stringified form. -/
def getEventKey (event : EventValues) : String :=
  optNatStr event.eventType ++ "-" ++ optStr event.type ++ "-" ++ optStr event.parameter

/- `getEventsValues` of the source: flatten scheme events into one entry per
   (event, notification) pair, in source iteration order. -/
def getEventsValues (instanceValues : SchemeValues) : List EventValues :=
  (instanceValues.notificationSchemeEvents.getD []).flatMap (fun event =>
    (event.notifications.getD []).map (fun notification =>
      { eventType := event.eventType
        type := notification.type
        parameter := notification.parameter
        id := notification.id }))

/- ===================== synthesized event instances ===================== -/

/- The `EVENT_TYPES` record of the source and the lookup-with-fallback
   `EVENT_TYPES[x] ?? x` used on channel type names. -/
def EVENT_TYPES (s : String) : Option String :=
  if s == "GroupCustomFieldll" then some "Group_Custom_Field_Value" else none

def mapEventTypeName (s : String) : String := (EVENT_TYPES s).getD s

/- The JSP-style body produced by `convertValuesToJSPBody`; absent fields
   (dropped by the `pickBy isDefined` of the source) are `none`.  `event`
   holds the inner id of the wire object `event: { id: values.eventType }`,
   and `typeParam` models the dynamic `[type]: values.parameter?.toString()`
   field. -/
structure EventInstanceValue where
  event : Option Nat
  notifications : List SchemeNotification
  id : Option Nat
  schemeId : Option IdVal
  name : String
  eventTypeIds : Option Nat
  type : Option String
  typeParam : Option String
deriving DecidableEq, Repr

/- The argument `{ ...event, name, id }` that `getEventInstances` passes to
   `convertValuesToJSPBody`. -/
structure JSPValues where
  eventType : Option Nat
  type : Option String
  parameter : Option String
  id : Option Nat
  name : String
deriving DecidableEq, Repr

/- `convertValuesToJSPBody` of the source.  The source reads
   `inst.notificationSchemeEvents.filter(...)` without a guard; the absent
   case (modelled with `getD []`) is unreachable because the caller found at
   least one projected entry.  A matched event with absent `notifications`
   would contribute `undefined` elements through `flatMap` in JavaScript;
   that shape never occurs here because such a pair produces no projected
   entry either. -/
def convertValuesToJSPBody (values : JSPValues) (inst : SchemeValues) : EventInstanceValue :=
  let type := values.type.map mapEventTypeName
  { event := values.eventType
    notifications := ((inst.notificationSchemeEvents.getD []).filter
        (fun event => event.eventType == values.eventType)).flatMap
        (fun event => event.notifications.getD [])
    id := values.id
    schemeId := inst.id
    name := values.name
    eventTypeIds := values.eventType
    type := type
    typeParam := values.parameter }

/- A synthesized event instance: `name` is the element-id name, which the
   source sets to the identity key (the full name only prepends a fixed
   adapter/type prefix, so equality of full names is equality of keys). -/
structure EventInstance where
  name : String
  value : EventInstanceValue
deriving DecidableEq, Repr

def getEventInstances (inst : SchemeValues) : List EventInstance :=
  (getEventsValues inst).map (fun event =>
    { name := getEventKey event
      value := convertValuesToJSPBody
        { eventType := event.eventType
          type := event.type
          parameter := event.parameter
          id := (inst.notificationIds.bind (fun m => assocGet m (getEventKey event))).join
          name := getEventKey event } inst })

/- ===================== the event diff ===================== -/

/- A notification scheme change record (the tagged form of the source's
   AdditionChange | ModificationChange). -/
inductive SchemeChange where
  | addition (after : SchemeValues)
  | modification (before after : SchemeValues)
deriving DecidableEq, Repr

def afterValues : SchemeChange → SchemeValues
  | .addition a => a
  | .modification _ a => a

/- A change over one synthesized event instance, as produced by
   `toChange({ before })` and `toChange({ after })`. -/
inductive EventChange where
  | removal (inst : EventInstance)
  | addition (inst : EventInstance)
deriving DecidableEq, Repr

/- `_.keyBy` over a JavaScript object: assignment keeps the position of an
   existing key and overwrites its value. -/
def upsert {α : Type} : List (String × α) → String → α → List (String × α)
  | [], k, v => [(k, v)]
  | (k2, v2) :: rest, k, v =>
    if k2 == k then (k2, v) :: rest else (k2, v2) :: upsert rest k v

def keyBy {α : Type} (key : α → String) (l : List α) : List (String × α) :=
  l.foldl (fun m x => upsert m (key x) x) []

def hasKey {α : Type} (m : List (String × α)) (k : String) : Bool :=
  m.any (fun p => p.1 == k)

def valuesOf {α : Type} (m : List (String × α)) : List α :=
  m.map Prod.snd

/- `getEventChanges` of the source: key both projections by name, keep the
   after-side values missing on the before side as additions and the
   before-side values missing on the after side as removals, removals first. -/
def getEventChanges (change : SchemeChange) : List EventChange :=
  let eventInstancesBefore := keyBy EventInstance.name
    (match change with
      | .modification before _ => getEventInstances before
      | .addition _ => [])
  let eventInstancesAfter := keyBy EventInstance.name (getEventInstances (afterValues change))
  let newEvents := (valuesOf eventInstancesAfter).filter
    (fun inst => !(hasKey eventInstancesBefore inst.name))
  let removedEvents := (valuesOf eventInstancesBefore).filter
    (fun inst => !(hasKey eventInstancesAfter inst.name))
  removedEvents.map EventChange.removal ++ newEvents.map EventChange.addition

/- ===================== untyped payloads and the shape validator ===================== -/

/- Untyped JSON-ish values, as seen by the Joi validator and by the
   read-back handling. -/
inductive JsVal where
  | null
  | bool (b : Bool)
  | num (n : Int)
  | str (s : String)
  | arr (elems : List JsVal)
  | obj (fields : List (String × JsVal))

def lookupField : List (String × JsVal) → String → Option JsVal
  | [], _ => none
  | (k2, v) :: rest, k => if k2 == k then some v else lookupField rest k

/- ---- Joi convert semantics ---- -/

/- Joi validates with its default options, so `convert: true` is in force:
   `Joi.object()` coerces a string by parsing it as JSON through the
   prototype-poisoning-safe parser (Bourne), and `Joi.number()` coerces a
   numeric string through `parseFloat` after matching its number pattern.
   `Joi.array()` and `Joi.string()` perform no such coercion, and
   `Joi.string()` rejects the empty string.  The JSON parser below follows
   the JSON.parse grammar; lone surrogate escapes (which JavaScript keeps as
   unpaired UTF-16 units) are represented by the replacement character, which
   cannot affect validation since decoded text matters only through equality
   with the fixed ASCII field names and through the string/number kind of
   values. -/

def quoteChar : Char := Char.ofNat 34

def backslashChar : Char := Char.ofNat 92

def braceOpen : Char := Char.ofNat 123

def braceClose : Char := Char.ofNat 125

def replacementChar : Char := Char.ofNat 0xFFFD

/- JSON.parse insignificant whitespace: space, tab, line feed, carriage
   return. -/
def jsonWsChar (c : Char) : Bool :=
  c == ' ' || c == Char.ofNat 9 || c == Char.ofNat 10 || c == Char.ofNat 13

def skipJsonWs (cs : List Char) : List Char :=
  cs.dropWhile jsonWsChar

/- The whitespace class of JavaScript regular expressions, used by the \s*
   anchors of the Joi number pattern. -/
def jsWhitespaceChar (c : Char) : Bool :=
  c == ' ' || c == Char.ofNat 9 || c == Char.ofNat 10 || c == Char.ofNat 11
    || c == Char.ofNat 12 || c == Char.ofNat 13 || c == Char.ofNat 0xA0
    || c == Char.ofNat 0x1680
    || (Char.ofNat 0x2000 ≤ c && c ≤ Char.ofNat 0x200A)
    || c == Char.ofNat 0x2028 || c == Char.ofNat 0x2029
    || c == Char.ofNat 0x202F || c == Char.ofNat 0x205F
    || c == Char.ofNat 0x3000 || c == Char.ofNat 0xFEFF

def hexVal (c : Char) : Option Nat :=
  if Char.ofNat 48 ≤ c ∧ c ≤ Char.ofNat 57 then some (c.toNat - 48)
  else if Char.ofNat 97 ≤ c ∧ c ≤ Char.ofNat 102 then some (c.toNat - 87)
  else if Char.ofNat 65 ≤ c ∧ c ≤ Char.ofNat 70 then some (c.toNat - 55)
  else none

/- The single-character escapes of JSON strings. -/
def escChar (c : Char) : Option Char :=
  if c == quoteChar then some quoteChar
  else if c == backslashChar then some backslashChar
  else if c == Char.ofNat 47 then some (Char.ofNat 47)
  else if c == 'b' then some (Char.ofNat 8)
  else if c == 'f' then some (Char.ofNat 12)
  else if c == 'n' then some (Char.ofNat 10)
  else if c == 'r' then some (Char.ofNat 13)
  else if c == 't' then some (Char.ofNat 9)
  else none

def digitsToNat (ds : List Char) : Nat :=
  ds.foldl (fun n c => n * 10 + (c.toNat - 48)) 0

/- A JSON string body after the opening quote: raw control characters are
   rejected, the escape set is the JSON one, and \uXXXX escapes decode with
   surrogate pairing.  Fueled recursion; each step consumes at least one
   character, so fuel = length + 1 never runs out on meaningful input. -/
def parseJString (fuel : Nat) (acc : List Char) (cs : List Char) : Option (String × List Char) :=
  match fuel, cs with
  | 0, _ => none
  | _, [] => none
  | fuel + 1, c :: rest =>
    if c == quoteChar then some (String.mk acc.reverse, rest)
    else if c == backslashChar then
      match rest with
      | [] => none
      | e :: rest2 =>
        if e == 'u' then
          match rest2 with
          | h1 :: h2 :: h3 :: h4 :: rest3 =>
            match hexVal h1, hexVal h2, hexVal h3, hexVal h4 with
            | some a, some b, some c2, some d =>
              let n := ((a * 16 + b) * 16 + c2) * 16 + d
              if 0xD800 ≤ n ∧ n ≤ 0xDBFF then
                match rest3 with
                | b1 :: u1 :: g1 :: g2 :: g3 :: g4 :: rest4 =>
                  if b1 == backslashChar && u1 == 'u' then
                    match hexVal g1, hexVal g2, hexVal g3, hexVal g4 with
                    | some a2, some b2, some c3, some d2 =>
                      let m := ((a2 * 16 + b2) * 16 + c3) * 16 + d2
                      if 0xDC00 ≤ m ∧ m ≤ 0xDFFF then
                        parseJString fuel
                          (Char.ofNat (0x10000 + (n - 0xD800) * 0x400 + (m - 0xDC00)) :: acc) rest4
                      else parseJString fuel (replacementChar :: acc) rest3
                    | _, _, _, _ => parseJString fuel (replacementChar :: acc) rest3
                  else parseJString fuel (replacementChar :: acc) rest3
                | _ => parseJString fuel (replacementChar :: acc) rest3
              else if 0xDC00 ≤ n ∧ n ≤ 0xDFFF then
                parseJString fuel (replacementChar :: acc) rest3
              else
                parseJString fuel (Char.ofNat n :: acc) rest3
            | _, _, _, _ => none
          | _ => none
        else
          match escChar e with
          | some ce => parseJString fuel (ce :: acc) rest2
          | none => none
    else if c.toNat < 0x20 then none
    else parseJString fuel (c :: acc) rest

/- An optional exponent part (e|E)(+|-)?digits, shared by the JSON number
   grammar and the Joi number pattern. -/
def parseExpOpt (cs : List Char) : Option (Int × List Char) :=
  match cs with
  | c :: rest =>
    if c == 'e' || c == 'E' then
      let signRest : Int × List Char :=
        match rest with
        | d :: r2 => if d == '+' then (1, r2) else if d == '-' then (-1, r2) else (1, rest)
        | [] => (1, rest)
      let (sgn, rest2) := signRest
      let (eds, rest3) := rest2.span Char.isDigit
      if eds.isEmpty then none else some (sgn * (digitsToNat eds : Int), rest3)
    else some (0, cs)
  | [] => some (0, [])

/- Joi marks a converted or raw number unsafe when the IEEE double it parses
   to lies outside the safe-integer range.  For a decimal literal of exact
   value v, the nearest double stays within the range exactly when
   2 * abs v < 2 ^ 54 - 1 (ties at the boundary round outward to 2 ^ 53). -/
def numericMagSafe (mant : Nat) (scale : Int) : Bool :=
  if 0 ≤ scale then decide (2 * mant * 10 ^ scale.toNat < 18014398509481983)
  else decide (2 * mant < 18014398509481983 * 10 ^ (-scale).toNat)

/- A parsed JSON number is consulted by validation only for being a number
   and for which side of the safe-integer boundary its double lies on, so a
   token is carried as its truncated integer when safe and as +-2^53 when
   not; fractional precision beyond that cannot influence the validator. -/
def encodeJsNumber (neg : Bool) (mant : Nat) (scale : Int) : Int :=
  if numericMagSafe mant scale then
    let mag : Nat :=
      if 0 ≤ scale then mant * 10 ^ scale.toNat else mant / 10 ^ (-scale).toNat
    if neg then -(mag : Int) else (mag : Int)
  else
    if neg then -9007199254740992 else 9007199254740992

/- A JSON number token: -?(0|[1-9]digits)(.digits)?((e|E)(+|-)?digits)?.
   A leading zero followed by more digits stops after the zero, and the
   stray digits then fail the surrounding structure, as in JSON.parse. -/
def parseJNumber (cs : List Char) : Option (Int × List Char) :=
  let signSplit : Bool × List Char :=
    match cs with
    | c :: rest => if c == '-' then (true, rest) else (false, cs)
    | [] => (false, cs)
  let (neg, cs1) := signSplit
  let intSplit : List Char × List Char :=
    match cs1 with
    | c :: rest => if c == '0' then ([c], rest) else cs1.span Char.isDigit
    | [] => ([], [])
  let (ids, cs2) := intSplit
  if ids.isEmpty then none
  else
    let fracSplit : Option (List Char × List Char) :=
      match cs2 with
      | p :: r2 =>
        if p == Char.ofNat 46 then
          let (fds, cs3) := r2.span Char.isDigit
          if fds.isEmpty then none else some (fds, cs3)
        else some ([], cs2)
      | [] => some ([], [])
    match fracSplit with
    | none => none
    | some (fds, cs3) =>
      match parseExpOpt cs3 with
      | none => none
      | some (ev, cs4) =>
        some (encodeJsNumber neg (digitsToNat (ids ++ fds)) (ev - (fds.length : Int)), cs4)

/- The JSON.parse value grammar, with fuel decreasing on every mutual call;
   object members land in the assoc list with JavaScript assignment
   semantics (duplicate keys keep the first position, last value). -/
mutual

def parseJValue : Nat → List Char → Option (JsVal × List Char)
  | 0, _ => none
  | fuel + 1, cs =>
    match skipJsonWs cs with
    | [] => none
    | c :: rest =>
      if c == quoteChar then
        match parseJString (rest.length + 1) [] rest with
        | some (s, r) => some (.str s, r)
        | none => none
      else if c == braceOpen then parseJObjectBody fuel true [] rest
      else if c == '[' then parseJArrayBody fuel true [] rest
      else if c == 't' then
        match rest with
        | 'r' :: 'u' :: 'e' :: r => some (.bool true, r)
        | _ => none
      else if c == 'f' then
        match rest with
        | 'a' :: 'l' :: 's' :: 'e' :: r => some (.bool false, r)
        | _ => none
      else if c == 'n' then
        match rest with
        | 'u' :: 'l' :: 'l' :: r => some (.null, r)
        | _ => none
      else
        match parseJNumber (c :: rest) with
        | some (n, r) => some (.num n, r)
        | none => none

def parseJObjectBody : Nat → Bool → List (String × JsVal) → List Char → Option (JsVal × List Char)
  | 0, _, _, _ => none
  | fuel + 1, first, fields, cs =>
    match skipJsonWs cs with
    | [] => none
    | c :: rest =>
      if c == braceClose then
        if first then some (.obj fields, rest) else none
      else if c == quoteChar then
        match parseJString (rest.length + 1) [] rest with
        | none => none
        | some (k, r1) =>
          match skipJsonWs r1 with
          | [] => none
          | colon :: r2 =>
            if colon == ':' then
              match parseJValue fuel r2 with
              | none => none
              | some (v, r3) =>
                match skipJsonWs r3 with
                | [] => none
                | d :: r4 =>
                  if d == ',' then parseJObjectBody fuel false (upsert fields k v) r4
                  else if d == braceClose then some (.obj (upsert fields k v), r4)
                  else none
            else none
      else none

def parseJArrayBody : Nat → Bool → List JsVal → List Char → Option (JsVal × List Char)
  | 0, _, _, _ => none
  | fuel + 1, first, elems, cs =>
    match skipJsonWs cs with
    | [] => none
    | c :: rest =>
      if c == ']' then
        if first then some (.arr elems.reverse, rest) else none
      else
        match parseJValue fuel (c :: rest) with
        | none => none
        | some (v, r1) =>
          match skipJsonWs r1 with
          | [] => none
          | d :: r2 =>
            if d == ',' then parseJArrayBody fuel false (v :: elems) r2
            else if d == ']' then some (.arr (v :: elems).reverse, r2)
            else none

end

/- Full-text JSON parse: trailing whitespace only.  The fuel bound is
   generous (every unit of fuel spent without failing consumes input within
   a bounded number of steps); JavaScript itself fails on pathologically
   deep nesting, which Joi catches, as running out of fuel models. -/
def jsonParseFull (s : String) : Option JsVal :=
  match parseJValue ((s.data.length + 1) * 8) s.data with
  | some (v, rest) => if (skipJsonWs rest).isEmpty then some v else none
  | none => none

/- Bourne (the parser Joi uses for object coercion) rejects any parsed text
   carrying a __proto__ key at any depth. -/
mutual

def hasProtoKey : JsVal → Bool
  | .obj fs => hasProtoFields fs
  | .arr l => hasProtoList l
  | _ => false

def hasProtoFields : List (String × JsVal) → Bool
  | [] => false
  | (k, v) :: rest => k == "__proto__" || hasProtoKey v || hasProtoFields rest

def hasProtoList : List JsVal → Bool
  | [] => false
  | v :: rest => hasProtoKey v || hasProtoList rest

end

def bourneParse (s : String) : Option JsVal :=
  match jsonParseFull s with
  | some v => if hasProtoKey v then none else some v
  | none => none

/- `Joi.object()` with convert: an object passes as is, and a string passes
   when it parses (safely) to an object.  The source pre-checks that the
   first non-whitespace character is a brace before attempting the parse;
   that check is behaviorally redundant, since no other text parses to an
   object. -/
def joiObjectFields (v : JsVal) : Option (List (String × JsVal)) :=
  match v with
  | .obj fs => some fs
  | .str s =>
    (match bourneParse s with
      | some (.obj fs) => some fs
      | _ => none)
  | _ => none

/- `Joi.number()` string coercion: the string must match Joi's number
   pattern \s*[+-]?((digits(.digits?)?)|(.digits))((e|E)(+-)?digits)?\s*
   and the parsed value must be finite and within the safe-integer range. -/
def joiNumericStringOk (s : String) : Bool :=
  let cs := s.data.dropWhile jsWhitespaceChar
  let signSplit : List Char :=
    match cs with
    | c :: rest => if c == '+' || c == '-' then rest else cs
    | [] => []
  let (ids, cs2) := signSplit.span Char.isDigit
  let fracSplit : Option (List Char × List Char) :=
    if ids.isEmpty then
      match cs2 with
      | p :: r2 =>
        if p == Char.ofNat 46 then
          let (fds, cs3) := r2.span Char.isDigit
          if fds.isEmpty then none else some (fds, cs3)
        else none
      | [] => none
    else
      match cs2 with
      | p :: r2 =>
        if p == Char.ofNat 46 then some (r2.span Char.isDigit)
        else some ([], cs2)
      | [] => some ([], [])
  match fracSplit with
  | none => false
  | some (fds, cs3) =>
    match parseExpOpt cs3 with
    | none => false
    | some (ev, cs4) =>
      (cs4.dropWhile jsWhitespaceChar).isEmpty
        && numericMagSafe (digitsToNat (ids ++ fds)) (ev - (fds.length : Int))

/- `Joi.number().required()`: a raw number within the safe-integer range, or
   a coercible numeric string. -/
def joiNumberOk (v : JsVal) : Bool :=
  match v with
  | .num n => decide (n.natAbs ≤ 9007199254740991)
  | .str s => joiNumericStringOk s
  | _ => false

/- `Joi.string().required()`: a non-empty string (Joi disallows the empty
   string by default). -/
def joiStringOk (v : JsVal) : Bool :=
  match v with
  | .str s => !(s == "")
  | _ => false

/- The `NOTIFICATION_SCHEME` Joi schema, embedded clause by clause with the
   convert semantics above.  The top-level object is required (possibly
   string-coerced), `notificationSchemeEvents` is an optional array (arrays
   are never string-coerced); each element requires an `event` object
   (possibly string-coerced) with a required numeric or numeric-string `id`;
   `notifications` is an optional array whose elements require a non-empty
   string `notificationType`; unknown extra fields are allowed everywhere. -/
def isNotificationJoi (v : JsVal) : Bool :=
  match joiObjectFields v with
  | some fs =>
    (match lookupField fs "notificationType" with
      | some t => joiStringOk t
      | none => false)
  | none => false

def isNotificationEventJoi (v : JsVal) : Bool :=
  match joiObjectFields v with
  | some fs =>
    (match lookupField fs "event" with
      | some ev =>
        (match joiObjectFields ev with
          | some efs =>
            (match lookupField efs "id" with
              | some idv => joiNumberOk idv
              | none => false)
          | none => false)
      | none => false)
    && (match lookupField fs "notifications" with
      | none => true
      | some (.arr ns) => ns.all isNotificationJoi
      | some _ => false)
  | none => false

/- `isNotificationScheme` of the source, with the `log.error` diagnostic
   dropped. -/
def isNotificationScheme (v : JsVal) : Bool :=
  match joiObjectFields v with
  | some fs =>
    (match lookupField fs "notificationSchemeEvents" with
      | none => true
      | some (.arr es) => es.all isNotificationEventJoi
      | some _ => false)
  | none => false

/- `event?.id` as read by `transformNotificationEvent` and by the read-back
   matching in `deployEvents`. -/
def eventIdJs (ev : JsVal) : Option JsVal :=
  match ev with
  | .obj fs =>
    match lookupField fs "event" with
    | some (.obj efs) => lookupField efs "id"
    | _ => none
  | _ => none

/- One notification of the PUT body: `pickBy` keeps only the defined ones of
   notificationType (run through the EVENT_TYPES fallback) and parameter. -/
structure WireNotification where
  notificationType : Option String
  parameter : Option String
deriving DecidableEq, Repr

structure PutData where
  eventId : Option Nat
  notifications : List WireNotification
deriving DecidableEq, Repr

structure PutCall where
  url : String
  data : PutData
deriving DecidableEq, Repr

/- The remote client: whether a PUT or DELETE succeeds, and the decoded body
   `response.data` of the read-back GET, keyed by the scheme id that appears
   in its query parameters. -/
structure Client where
  putOk : PutCall → Bool
  deleteOk : String → Bool
  readBackData : String → JsVal

/- Modelled from the spec: `isPageResponse` is imported from the automation
   fetch module, which is not among the provided sources; section 6 of the
   spec requires the read-back response to "contain a `values` array". -/
def isPageResponse (v : JsVal) : Bool :=
  match v with
  | .obj fs =>
    match lookupField fs "values" with
    | some (.arr _) => true
    | _ => false
  | _ => false

/- `response.data.values[0]`; an empty `values` array yields `undefined`,
   which the Joi validator then rejects (required top-level object). -/
def firstValue (v : JsVal) : Option JsVal :=
  match v with
  | .obj fs =>
    match lookupField fs "values" with
    | some (.arr (w :: _)) => some w
    | _ => none
  | _ => none

/- Outcome of the read-back bookkeeping after a successful create call:
   the guard `isPageResponse && isNotificationScheme` silently skips,
   a matching notification records its id (possibly undefined), and the
   JavaScript TypeErrors of the unguarded accesses fail the task. -/
inductive ReadBackOutcome where
  | skipped
  | recorded (id : Option Nat)
  | failed (msg : String)
deriving DecidableEq, Repr

def notifTypeMatches (nf : JsVal) (typ : Option String) : Bool :=
  match nf, typ with
  | .obj nfs, _ =>
    (match lookupField nfs "notificationType", typ with
      | some (.str s), some t => s == t
      | none, none => true
      | _, _ => false)
  | _, _ => false

def eventIdMatches (ev : JsVal) (eventTypeIds : Option Nat) : Bool :=
  match eventIdJs ev, eventTypeIds with
  | some (.num n), some m => n == Int.ofNat m
  | none, none => true
  | _, _ => false

def notifsArr (ev : JsVal) : Option (List JsVal) :=
  match ev with
  | .obj fs =>
    match lookupField fs "notifications" with
    | some (.arr ns) => some ns
    | _ => none
  | _ => none

def notifId (nf : JsVal) : Option Nat :=
  match nf with
  | .obj nfs =>
    (match lookupField nfs "id" with
      | some (.num k) => some k.toNat
      | _ => none)
  | _ => none

/- The read-back extraction of `deployEvents` lines 262-268: filter the
   returned scheme events by `event.event?.id === eventTypeIds`, flatten
   their notifications, filter by `notificationType === type`, and take the
   id of the first hit.  A matched event without a notifications array makes
   the JavaScript `filter` callback dereference `undefined`; an empty hit
   list makes `notificationEvent[0].id` dereference `undefined`; both throw. -/
def recordReadBackAux (rd : JsVal) (eventTypeIds : Option Nat) (typ : Option String) : ReadBackOutcome :=
  if isPageResponse rd then
    match firstValue rd with
    | some v =>
      if isNotificationScheme v then
        match v with
        | .obj fs =>
          match lookupField fs "notificationSchemeEvents" with
          | some (.arr es) =>
            let matched := es.filter (fun ev => eventIdMatches ev eventTypeIds)
            if matched.any (fun ev => (notifsArr ev).isNone) then
              .failed "TypeError: undefined has no properties"
            else
              match (matched.flatMap (fun ev => (notifsArr ev).getD [])).filter
                  (fun nf => notifTypeMatches nf typ) with
              | [] => .failed "TypeError: cannot read id of undefined"
              | nf :: _ => .recorded (notifId nf)
          | _ => .failed "TypeError: cannot read filter of undefined"
        | _ =>
          -- only a string coerced by the validator reaches here; the source
          -- then dereferences a field of the original (non-object) value
          .failed "TypeError: cannot read filter of undefined"
      else .skipped
    | none => .skipped
  else .skipped

def recordReadBack (rd : JsVal) (v : EventInstanceValue) : ReadBackOutcome :=
  recordReadBackAux rd v.eventTypeIds v.type

/- The evolving state of one `deployEvents` run: the identifier map of the
   scheme instance plus the audit trail of remote calls and per-task errors.
   The `Promise.all` of the source is serialized here; the tasks touch
   pairwise distinct identity keys, so the final map is the same, and the
   error list collects every rejection (the source surfaces the first). -/
structure DeployState where
  notificationIds : Option (List (String × Option Nat))
  putCalls : List PutCall
  deleteCalls : List String
  errors : List String
deriving DecidableEq, Repr

/- One task of the `Promise.all` of `deployEvents`. -/
def processEventChange (client : Client) (st : DeployState) (eventChange : EventChange) : DeployState :=
  match eventChange with
  | .removal inst =>
    match st.notificationIds with
    | none =>
      { st with errors := st.errors ++ ["TypeError: notificationIds is undefined"] }
    | some m =>
      let notificationId := (assocGet m inst.value.name).join
      let url := "/rest/api/3/notificationscheme/" ++ optIdStr inst.value.schemeId
        ++ "/notification/" ++ optNatStr notificationId
      let st := { st with deleteCalls := st.deleteCalls ++ [url] }
      if client.deleteOk url then
        { st with notificationIds := some (assocDelete m inst.value.name) }
      else
        { st with errors := st.errors ++ ["delete failed: " ++ url] }
  | .addition inst =>
    let m0 := st.notificationIds.getD []
    let st := { st with notificationIds := some m0 }
    let data : PutData :=
      { eventId := inst.value.eventTypeIds
        notifications := inst.value.notifications.map (fun notification =>
          { notificationType := notification.notificationType.map mapEventTypeName
            parameter := notification.parameter }) }
    let schemeIdText := optIdStr inst.value.schemeId
    let call : PutCall :=
      { url := "/rest/api/3/notificationscheme/" ++ schemeIdText ++ "/notification"
        data := data }
    let st := { st with putCalls := st.putCalls ++ [call] }
    if client.putOk call then
      match recordReadBack (client.readBackData schemeIdText) inst.value with
      | .skipped => st
      | .recorded idv =>
        { st with notificationIds := some (assocSet m0 inst.value.name idv) }
      | .failed msg => { st with errors := st.errors ++ [msg] }
    else
      { st with errors := st.errors ++ ["put failed: " ++ call.url] }

/- `deployEvents` of the source (reference resolution is the identity on the
   plain values modelled here). -/
def deployEvents (client : Client) (change : SchemeChange) : DeployState :=
  let eventChanges := getEventChanges change
  let inst := afterValues change
  eventChanges.foldl (processEventChange client)
    { notificationIds := inst.notificationIds
      putCalls := []
      deleteCalls := []
      errors := [] }

/- ===================== the deployment filter ===================== -/

/- The declarative shape the deployment filter transforms: a notification can
   carry the declarative `type` and the wire `notificationType`, an event the
   declarative `eventType` reference and the wire `event` copy, the scheme the
   top-level `id` and the wire `schemeId` mirror. -/
structure DNotification where
  type : Option String
  notificationType : Option String
  parameter : Option String
deriving DecidableEq, Repr

structure DEvent where
  eventType : Option Nat
  event : Option Nat
  notifications : Option (List DNotification)
deriving DecidableEq, Repr

structure DSchemeValue where
  id : Option IdVal
  schemeId : Option IdVal
  notificationSchemeEvents : Option (List DEvent)
deriving DecidableEq, Repr

inductive ChangeKind where
  | addition
  | modification
  | removal
deriving DecidableEq, Repr

/- An instance change as the filter sees it (all filter inputs here are
   instance changes; `typeName` is the element type name). -/
structure FilterChange where
  kind : ChangeKind
  typeName : String
  value : DSchemeValue
deriving DecidableEq, Repr

/- The type-name constant from the constants module (not among the provided
   sources); its exact text does not affect any claim. -/
def NOTIFICATION_SCHEME_TYPE_NAME : String := "NotificationScheme"

def isRemovalOrModification (kind : ChangeKind) : Bool :=
  match kind with
  | .removal => true
  | .modification => true
  | .addition => false

/- `Number(x)` on the values a scheme id takes; the empty string maps to 0
   and non-numeric text to NaN, as in JavaScript. -/
def jsNumber : Option IdVal → IdVal
  | none => .nan
  | some (.num n) => .num n
  | some .nan => .nan
  | some (.str s) =>
    if s == "" then .num 0
    else match s.toInt? with
      | some n => .num n
      | none => .nan

/- The per-event body of `filter.preDeploy`: the whole inner rewrite runs
   only when `eventType` is present.  The `isNotificationSchemeEvent` guard
   (a Joi schema accepting any object) passes for every typed event record. -/
def preDeployEvent (ev : DEvent) : DEvent :=
  if ev.eventType.isSome then
    { ev with
        event := ev.eventType
        notifications := ev.notifications.map (List.map (fun notification =>
          if notification.type.isSome then
            { notification with notificationType := notification.type }
          else notification)) }
  else ev

def preDeployValue (kind : ChangeKind) (v : DSchemeValue) : DSchemeValue :=
  let v := match v.notificationSchemeEvents with
    | none => v
    | some evs => { v with notificationSchemeEvents := some (evs.map preDeployEvent) }
  if isRemovalOrModification kind then { v with schemeId := v.id } else v

/- The per-event body of `filter.onDeploy`: drop `notificationType` from
   every notification and drop `event`, unconditionally. -/
def onDeployEvent (ev : DEvent) : DEvent :=
  { ev with
      event := none
      notifications := ev.notifications.map (List.map (fun notification =>
        { notification with notificationType := none })) }

def onDeployValue (kind : ChangeKind) (v : DSchemeValue) : DSchemeValue :=
  let v := { v with id := some (jsNumber v.id) }
  let v := match v.notificationSchemeEvents with
    | none => v
    | some evs => { v with notificationSchemeEvents := some (evs.map onDeployEvent) }
  if isRemovalOrModification kind then { v with schemeId := none } else v

/- `filter.preDeploy` / `filter.onDeploy`: on a Data Center client they
   return immediately; otherwise they rewrite the notification scheme
   instance changes in place. -/
def preDeployFilter (isDataCenter : Bool) (changes : List FilterChange) : List FilterChange :=
  if isDataCenter then changes
  else changes.map (fun change =>
    if change.typeName == NOTIFICATION_SCHEME_TYPE_NAME then
      { change with value := preDeployValue change.kind change.value }
    else change)

def onDeployFilter (isDataCenter : Bool) (changes : List FilterChange) : List FilterChange :=
  if isDataCenter then changes
  else changes.map (fun change =>
    if change.typeName == NOTIFICATION_SCHEME_TYPE_NAME then
      { change with value := onDeployValue change.kind change.value }
    else change)

/- The result shape of `filter.deploy`. -/
structure FilterDeployResult where
  leftoverChanges : List FilterChange
  appliedChanges : List FilterChange
  errors : List String
deriving DecidableEq, Repr

/- `filter.deploy`: a Data Center client short-circuits with every change
   left over and an empty deploy result; otherwise the work is delegated to
   the generic orchestrators, modelled as the explicit collaborator `rest`. -/
def filterDeploy (isDataCenter : Bool) (rest : List FilterChange → FilterDeployResult)
    (changes : List FilterChange) : FilterDeployResult :=
  if isDataCenter then
    { leftoverChanges := changes
      appliedChanges := []
      errors := [] }
  else rest changes

/- The canonical declarative shape of a scheme value: none of the wire-only
   fields (`schemeId`, per-event `event`, per-notification
   `notificationType`) is present. -/
def canonicalShape (v : DSchemeValue) : Bool :=
  v.schemeId == none
  && (v.notificationSchemeEvents.getD []).all (fun ev =>
      ev.event == none
      && (ev.notifications.getD []).all (fun notification =>
          notification.notificationType == none))

/- ===================== concrete sample data ===================== -/

/- Two declarative bindings that differ only in their notification id and so
   share the identity key 10-EmailA-p. -/
def schemeDupKeys : SchemeValues :=
  { id := some (.num 1)
    notificationSchemeEvents := some [
      { eventType := some 10
        notifications := some [
          { type := some "EmailA", notificationType := some "EmailA"
            parameter := some "p", id := some 1 }
          , { type := some "EmailA", notificationType := some "EmailA"
              parameter := some "p", id := some 2 } ] } ]
    notificationIds := none }

def sampleBefore : SchemeValues :=
  { id := some (.num 1)
    notificationSchemeEvents := some [
      { eventType := some 10
        notifications := some [
          { type := some "EmailA", notificationType := none
            parameter := none, id := some 1 } ] } ]
    notificationIds := some [("10-EmailA-undefined", some 7)] }

def sampleAfter : SchemeValues :=
  { id := some (.num 1)
    notificationSchemeEvents := some [
      { eventType := some 10
        notifications := some [
          { type := some "EmailB", notificationType := none
            parameter := none, id := none } ] } ]
    notificationIds := some [("10-EmailA-undefined", some 7)] }

/- Three bindings across two event types (the creation-path scenario). -/
def schemeThree : SchemeValues :=
  { id := some (.num 1)
    notificationSchemeEvents := some [
      { eventType := some 10
        notifications := some [
          { type := some "EmailA", notificationType := some "EmailA"
            parameter := some "p", id := none }
          , { type := some "EmailB", notificationType := some "EmailB"
              parameter := none, id := none } ] }
      , { eventType := some 20
          notifications := some [
            { type := some "EmailA", notificationType := some "EmailA"
              parameter := none, id := none } ] } ]
    notificationIds := none }

/- A well-formed read-back page for schemeThree: remote ids 555, 556, 557. -/
def rbFull : JsVal :=
  .obj [("values", .arr [
    .obj [("notificationSchemeEvents", .arr [
      .obj [
        ("event", .obj [("id", .num 10)]),
        ("notifications", .arr [
          .obj [("notificationType", .str "EmailA"), ("parameter", .str "p"), ("id", .num 555)]
          , .obj [("notificationType", .str "EmailB"), ("id", .num 556)] ]) ]
      , .obj [
          ("event", .obj [("id", .num 20)]),
          ("notifications", .arr [
            .obj [("notificationType", .str "EmailA"), ("id", .num 557)] ]) ] ]) ] ]) ]

def clientAllOk : Client :=
  { putOk := fun _ => true
    deleteOk := fun _ => true
    readBackData := fun _ => rbFull }

/- A single binding, and a client whose read-back body fails the shape
   guard (it is not a page response). -/
def schemeOne : SchemeValues :=
  { id := some (.num 1)
    notificationSchemeEvents := some [
      { eventType := some 10
        notifications := some [
          { type := some "EmailA", notificationType := some "EmailA"
            parameter := some "p", id := none } ] } ]
    notificationIds := none }

def clientBadRB : Client :=
  { putOk := fun _ => true
    deleteOk := fun _ => true
    readBackData := fun _ => .null }

/- Two bindings of distinct event types; the create call of the second
   (event type 20) fails. -/
def schemeC6 : SchemeValues :=
  { id := some (.num 1)
    notificationSchemeEvents := some [
      { eventType := some 10
        notifications := some [
          { type := some "EmailA", notificationType := some "EmailA"
            parameter := some "p", id := none } ] }
      , { eventType := some 20
          notifications := some [
            { type := some "EmailB", notificationType := some "EmailB"
              parameter := none, id := none } ] } ]
    notificationIds := none }

def clientC6 : Client :=
  { putOk := fun call => call.data.eventId == some 10
    deleteOk := fun _ => true
    readBackData := fun _ => rbFull }

/- Two bindings sharing event type and channel type, differing only in the
   parameter; the read-back reports their two remote notifications with ids
   555 (parameter p1) and 556 (parameter p2). -/
def schemeC9 : SchemeValues :=
  { id := some (.num 1)
    notificationSchemeEvents := some [
      { eventType := some 10
        notifications := some [
          { type := some "EmailA", notificationType := some "EmailA"
            parameter := some "p1", id := none }
          , { type := some "EmailA", notificationType := some "EmailA"
              parameter := some "p2", id := none } ] } ]
    notificationIds := none }

def rbC9 : JsVal :=
  .obj [("values", .arr [
    .obj [("notificationSchemeEvents", .arr [
      .obj [
        ("event", .obj [("id", .num 10)]),
        ("notifications", .arr [
          .obj [("notificationType", .str "EmailA"), ("parameter", .str "p1"), ("id", .num 555)]
          , .obj [("notificationType", .str "EmailA"), ("parameter", .str "p2"), ("id", .num 556)] ]) ] ]) ] ]) ]

def clientC9 : Client :=
  { putOk := fun _ => true
    deleteOk := fun _ => true
    readBackData := fun _ => rbC9 }

/- A removal-side event instance and two starting states for the removal
   branch: an empty identifier map, and an absent one. -/
def remInst : EventInstance :=
  { name := "10-EmailA-p"
    value :=
      { event := some 10
        notifications := []
        id := none
        schemeId := some (.num 1)
        name := "10-EmailA-p"
        eventTypeIds := some 10
        type := some "EmailA"
        typeParam := some "p" } }

def stEmptyMap : DeployState :=
  { notificationIds := some [], putCalls := [], deleteCalls := [], errors := [] }

def stNoMap : DeployState :=
  { notificationIds := none, putCalls := [], deleteCalls := [], errors := [] }

/- A canonical-shape scheme value for the round-trip witness. -/
def sampleCanonical : DSchemeValue :=
  { id := some (.str "42")
    schemeId := none
    notificationSchemeEvents := some [
      { eventType := some 10
        event := none
        notifications := some [
          { type := some "EmailA", notificationType := none, parameter := some "p" } ] }
      , { eventType := none
          event := none
          notifications := some [
            { type := some "EmailB", notificationType := none, parameter := none } ] } ] }

/- ===================== theorems ===================== -/

/- String facts used for identity-key reasoning. -/

theorem stringDataAppend (s t : String) : (s ++ t).data = s.data ++ t.data := by
  cases s; cases t; rfl

theorem stringExt {s t : String} (h : s.data = t.data) : s = t := by
  cases s; cases t; exact congrArg String.mk h

theorem stringAppendLeftCancel {s t u : String} (h : s ++ t = s ++ u) : t = u := by
  have hd : s.data ++ t.data = s.data ++ u.data := by
    rw [← stringDataAppend, ← stringDataAppend, h]
  exact stringExt (List.append_cancel_left hd)

theorem stringAppendRightCancel {s t u : String} (h : s ++ u = t ++ u) : s = t := by
  have hd : s.data ++ u.data = t.data ++ u.data := by
    rw [← stringDataAppend, ← stringDataAppend, h]
  exact stringExt (List.append_cancel_right hd)

/-- C5 (amended): the identity key is the concatenation
eventType-type-parameter with "undefined" standing for an absent field; it is
identical across repeated projections of an unchanged entry, and changing
exactly one of the three fields changes the key whenever the textual form of
that field changes.  (Changing a field between two values with the same
textual form — the counterexample below — leaves the key unchanged.) -/
theorem getEventKey_single_field_change (e1 e2 : EventValues) :
    (e1 = e2 → getEventKey e1 = getEventKey e2)
    ∧ (e1.eventType = e2.eventType → e1.type = e2.type →
        optStr e1.parameter ≠ optStr e2.parameter → getEventKey e1 ≠ getEventKey e2)
    ∧ (e1.eventType = e2.eventType → e1.parameter = e2.parameter →
        optStr e1.type ≠ optStr e2.type → getEventKey e1 ≠ getEventKey e2)
    ∧ (e1.type = e2.type → e1.parameter = e2.parameter →
        optNatStr e1.eventType ≠ optNatStr e2.eventType → getEventKey e1 ≠ getEventKey e2) := by
  refine ⟨fun h => by rw [h], ?_, ?_, ?_⟩
  · intro h1 h2 hne hkey
    apply hne
    unfold getEventKey at hkey
    rw [h1, h2] at hkey
    exact stringAppendLeftCancel hkey
  · intro h1 h2 hne hkey
    apply hne
    unfold getEventKey at hkey
    rw [h1, h2] at hkey
    have hkey2 := stringAppendRightCancel hkey
    have hkey3 := stringAppendRightCancel hkey2
    exact stringAppendLeftCancel hkey3
  · intro h1 h2 hne hkey
    apply hne
    unfold getEventKey at hkey
    rw [h1, h2] at hkey
    have hkey2 := stringAppendRightCancel hkey
    have hkey3 := stringAppendRightCancel hkey2
    have hkey4 := stringAppendRightCancel hkey3
    exact stringAppendRightCancel hkey4

/-- C5 counterexample: two entries that differ only in the parameter — absent
versus the literal string "undefined" — have the same identity key, so a
change of the parameter field does not always change the key. -/
theorem getEventKey_parameter_collision :
    (⟨some 10, some "EmailA", none, none⟩ : EventValues)
        ≠ ⟨some 10, some "EmailA", some "undefined", none⟩
    ∧ (⟨some 10, some "EmailA", none, none⟩ : EventValues).parameter
        ≠ (⟨some 10, some "EmailA", some "undefined", none⟩ : EventValues).parameter
    ∧ getEventKey ⟨some 10, some "EmailA", none, none⟩
        = getEventKey ⟨some 10, some "EmailA", some "undefined", none⟩ := by
  refine ⟨by decide, by decide, by decide⟩

/-- C5 witness: a parameter change with a different textual form changes the
key of a concrete entry. -/
theorem getEventKey_single_field_change_witness :
    getEventKey ⟨some 10, some "EmailA", some "p", none⟩
      ≠ getEventKey ⟨some 10, some "EmailA", some "q", none⟩ :=
  (getEventKey_single_field_change ⟨some 10, some "EmailA", some "p", none⟩
      ⟨some 10, some "EmailA", some "q", none⟩).2.1 rfl rfl (by decide)

/- keyBy facts under pairwise distinct keys. -/

theorem upsert_append {α : Type} (m : List (String × α)) (k : String) (v : α)
    (h : ∀ p ∈ m, p.1 ≠ k) : upsert m k v = m ++ [(k, v)] := by
  induction m with
  | nil => rfl
  | cons p rest ih =>
    obtain ⟨k2, v2⟩ := p
    have hk2 : k2 ≠ k := h (k2, v2) (by simp)
    simp only [upsert, beq_iff_eq, if_neg hk2, List.cons_append, List.cons.injEq, true_and]
    exact ih (fun q hq => h q (by simp [hq]))

theorem keyBy_foldl {α : Type} (key : α → String) :
    ∀ (l : List α) (m : List (String × α)),
      (l.map key).Nodup → (∀ x ∈ l, ∀ p ∈ m, p.1 ≠ key x) →
      l.foldl (fun acc x => upsert acc (key x) x) m = m ++ l.map (fun x => (key x, x))
  | [], m, _, _ => by simp
  | x :: xs, m, hnd, hdis => by
    have hpair : (∀ y ∈ xs, ¬ key y = key x) ∧ (xs.map key).Nodup := by
      simpa using hnd
    have hnd2 : (xs.map key).Nodup := hpair.2
    have step : upsert m (key x) x = m ++ [(key x, x)] :=
      upsert_append m (key x) x (fun p hp => hdis x (by simp) p hp)
    have hdis2 : ∀ y ∈ xs, ∀ p ∈ m ++ [(key x, x)], p.1 ≠ key y := by
      intro y hy p hp
      rcases List.mem_append.mp hp with hp1 | hp2
      · exact hdis y (by simp [hy]) p hp1
      · have hpe : p = (key x, x) := by simpa using hp2
        subst hpe
        intro hcontra
        have hxy : key x = key y := hcontra
        exact hpair.1 y hy hxy.symm
    calc (x :: xs).foldl (fun acc x => upsert acc (key x) x) m
        = xs.foldl (fun acc x => upsert acc (key x) x) (upsert m (key x) x) := by simp
      _ = (m ++ [(key x, x)]) ++ xs.map (fun x => (key x, x)) := by
            rw [step]; exact keyBy_foldl key xs (m ++ [(key x, x)]) hnd2 hdis2
      _ = m ++ (x :: xs).map (fun x => (key x, x)) := by simp

theorem keyBy_eq_map {α : Type} (key : α → String) (l : List α)
    (h : (l.map key).Nodup) : keyBy key l = l.map (fun x => (key x, x)) := by
  have := keyBy_foldl key l [] h (by simp)
  simpa [keyBy] using this

theorem valuesOf_map_pair {α : Type} (key : α → String) (l : List α) :
    valuesOf (l.map (fun x => (key x, x))) = l := by
  induction l with
  | nil => rfl
  | cons x xs ih =>
    simp only [valuesOf, List.map_cons] at ih ⊢
    rw [ih]

theorem hasKey_map_pair {α : Type} (key : α → String) (l : List α) (k : String) :
    hasKey (l.map (fun x => (key x, x))) k = l.any (fun x => key x == k) := by
  induction l with
  | nil => rfl
  | cons x xs ih =>
    simp only [hasKey, List.map_cons, List.any_cons] at ih ⊢
    rw [ih]

/-- C1 (amended): over projections whose identity keys are pairwise distinct
on each side, the diff is exactly: removals = the before-instances whose key
has no counterpart after, then additions = the after-instances whose key has
no counterpart before, every removal listed before every addition; an
addition change treats the before side as empty, so every projected
after-instance becomes an addition and nothing is removed; and instance names
are exactly the identity keys of the projected entries.  (Entries sharing an
identity key collapse to the last one, see the counterexample.) -/
theorem getEventChanges_diff (before after : SchemeValues)
    (hb : ((getEventInstances before).map EventInstance.name).Nodup)
    (ha : ((getEventInstances after).map EventInstance.name).Nodup) :
    getEventChanges (.modification before after)
      = ((getEventInstances before).filter
            (fun i => !((getEventInstances after).any (fun j => j.name == i.name)))).map
            EventChange.removal
        ++ ((getEventInstances after).filter
            (fun i => !((getEventInstances before).any (fun j => j.name == i.name)))).map
            EventChange.addition
    ∧ getEventChanges (.addition after) = (getEventInstances after).map EventChange.addition
    ∧ ∀ v : SchemeValues,
        (getEventInstances v).map EventInstance.name = (getEventsValues v).map getEventKey := by
  refine ⟨?_, ?_, ?_⟩
  · show getEventChanges (.modification before after) = _
    simp only [getEventChanges, afterValues]
    rw [keyBy_eq_map EventInstance.name _ hb, keyBy_eq_map EventInstance.name _ ha]
    rw [valuesOf_map_pair, valuesOf_map_pair]
    simp only [hasKey_map_pair]
  · show getEventChanges (.addition after) = _
    simp only [getEventChanges, afterValues]
    rw [keyBy_eq_map EventInstance.name _ ha]
    rw [valuesOf_map_pair]
    simp [keyBy, valuesOf, hasKey]
  · intro v
    unfold getEventInstances
    rw [List.map_map]
    rfl

/-- C1 counterexample: an addition change whose after snapshot projects to
two distinct entries sharing one identity key produces a single addition, not
one per projected after-entry, so the diff is not exactly the set of
after-entries whose key lacks a counterpart. -/
theorem getEventChanges_duplicate_key_collapse :
    (getEventsValues schemeDupKeys).length = 2
    ∧ (getEventChanges (.addition schemeDupKeys)).length = 1 := by
  exact ⟨by decide, by decide⟩

/-- C1 witness: the diff theorem applied to a concrete modification pair with
distinct identity keys on each side. -/
theorem getEventChanges_diff_witness :
    getEventChanges (.modification sampleBefore sampleAfter)
      = ((getEventInstances sampleBefore).filter
            (fun i => !((getEventInstances sampleAfter).any (fun j => j.name == i.name)))).map
            EventChange.removal
        ++ ((getEventInstances sampleAfter).filter
            (fun i => !((getEventInstances sampleBefore).any (fun j => j.name == i.name)))).map
            EventChange.addition
    ∧ getEventChanges (.addition sampleAfter)
        = (getEventInstances sampleAfter).map EventChange.addition
    ∧ ∀ v : SchemeValues,
        (getEventInstances v).map EventInstance.name = (getEventsValues v).map getEventKey :=
  getEventChanges_diff sampleBefore sampleAfter (by decide) (by decide)

/- Characterization of the embedded Joi validator. -/

/-- C2 counterexample: in the creation scenario — empty before, three
projected entries across two event types — the apply loop issues three PUT
calls, not two: the loop creates once per added entry, without grouping by
event type. -/
theorem deployEvents_three_puts_not_two :
    ¬ (deployEvents clientAllOk (.addition schemeThree)).putCalls.length = 2 := by
  decide

/-- C2 (amended): given an addition change with empty before state and three
projected entries across two event types, the diff makes all three entries
additions and none removals, and the apply loop issues exactly three create
(PUT) calls — one per added entry, each carrying every notification of that
entry's event type — and zero delete calls. -/
theorem deployEvents_creation_path :
    (getEventChanges (.addition schemeThree)).length = 3
    ∧ ((getEventChanges (.addition schemeThree)).all
        (fun eventChange => match eventChange with
          | .addition _ => true
          | .removal _ => false)) = true
    ∧ (deployEvents clientAllOk (.addition schemeThree)).putCalls
        = [ { url := "/rest/api/3/notificationscheme/1/notification"
              data := { eventId := some 10
                        notifications := [
                          { notificationType := some "EmailA", parameter := some "p" }
                          , { notificationType := some "EmailB", parameter := none } ] } }
          , { url := "/rest/api/3/notificationscheme/1/notification"
              data := { eventId := some 10
                        notifications := [
                          { notificationType := some "EmailA", parameter := some "p" }
                          , { notificationType := some "EmailB", parameter := none } ] } }
          , { url := "/rest/api/3/notificationscheme/1/notification"
              data := { eventId := some 20
                        notifications := [
                          { notificationType := some "EmailA", parameter := none } ] } } ]
    ∧ (deployEvents clientAllOk (.addition schemeThree)).deleteCalls = [] := by
  refine ⟨by decide, by decide, by decide, by decide⟩

/-- C4: the code contradicts the claim — when the read-back payload fails the
shape guard, the add is not reported as failed: the deploy run finishes with
an empty error list and no identifier recorded under the entry's key (the
identifier map stays the freshly initialized empty object). -/
theorem deployEvents_silent_readback_validation_failure :
    isPageResponse (clientBadRB.readBackData "1") = false
    ∧ (deployEvents clientBadRB (.addition schemeOne)).putCalls.length = 1
    ∧ (deployEvents clientBadRB (.addition schemeOne)).errors = []
    ∧ (deployEvents clientBadRB (.addition schemeOne)).notificationIds = some [] := by
  refine ⟨by decide, by decide, by decide, by decide⟩

/-- C6: two adds where the create call of the second fails — the identifier
of the first entry is still recorded under its key, the failed entry's key is
left untouched (absent), and the aggregated result reports exactly one
failure. -/
theorem deployEvents_partial_failure_isolated :
    (deployEvents clientC6 (.addition schemeC6)).notificationIds
        = some [("10-EmailA-p", some 555)]
    ∧ (deployEvents clientC6 (.addition schemeC6)).putCalls.length = 2
    ∧ (deployEvents clientC6 (.addition schemeC6)).errors.length = 1 := by
  refine ⟨by decide, by decide, by decide⟩

/-- C9: the post-create read-back matching uses only the event-type id and
the channel type, never the parameter — the recorded outcome is identical for
any two entries agreeing on those two fields — and it records the id of the
first matching notification: with two bindings sharing event type and channel
type but differing in parameter, both identity keys record id 555, the id of
the first-parameter binding's notification. -/
theorem readBack_matches_ignore_parameter :
    (∀ (rd : JsVal) (v1 v2 : EventInstanceValue),
        v1.eventTypeIds = v2.eventTypeIds → v1.type = v2.type →
        recordReadBack rd v1 = recordReadBack rd v2)
    ∧ (deployEvents clientC9 (.addition schemeC9)).notificationIds
        = some [("10-EmailA-p1", some 555), ("10-EmailA-p2", some 555)] := by
  constructor
  · intro rd v1 v2 h1 h2
    unfold recordReadBack
    rw [h1, h2]
  · decide

/-- C9 witness: the parameter-independence of the read-back match applied at
two concrete entries that differ in their parameter-derived fields. -/
theorem readBack_matches_ignore_parameter_witness :
    recordReadBack rbC9 remInst.value
      = recordReadBack rbC9
          { remInst.value with typeParam := some "other", name := "10-EmailA-other" } :=
  readBack_matches_ignore_parameter.1 rbC9 remInst.value
    { remInst.value with typeParam := some "other", name := "10-EmailA-other" } rfl rfl

/-- C10: the removal branch reads the stored identifier without a guard.
With an identifier map present, the delete call is issued with whatever the
lookup yields, and a missing key yields a request URL ending in the literal
text "undefined"; with no identifier map on the instance at all, the lookup
throws and no delete call is issued for that entry. -/
theorem removal_branch_unguarded_lookup (client : Client) (st : DeployState)
    (inst : EventInstance) :
    (∀ m, st.notificationIds = some m →
      (processEventChange client st (.removal inst)).deleteCalls
        = st.deleteCalls ++ ["/rest/api/3/notificationscheme/" ++ optIdStr inst.value.schemeId
            ++ "/notification/" ++ optNatStr ((assocGet m inst.value.name).join)])
    ∧ (∀ m, st.notificationIds = some m → (assocGet m inst.value.name).join = none →
      (processEventChange client st (.removal inst)).deleteCalls
        = st.deleteCalls ++ ["/rest/api/3/notificationscheme/" ++ optIdStr inst.value.schemeId
            ++ "/notification/" ++ "undefined"])
    ∧ (st.notificationIds = none →
      processEventChange client st (.removal inst)
        = { st with errors := st.errors ++ ["TypeError: notificationIds is undefined"] }) := by
  have main : ∀ m, st.notificationIds = some m →
      (processEventChange client st (.removal inst)).deleteCalls
        = st.deleteCalls ++ ["/rest/api/3/notificationscheme/" ++ optIdStr inst.value.schemeId
            ++ "/notification/" ++ optNatStr ((assocGet m inst.value.name).join)] := by
    intro m hm
    simp only [processEventChange, hm]
    cases hd : client.deleteOk ("/rest/api/3/notificationscheme/" ++ optIdStr inst.value.schemeId
        ++ "/notification/" ++ optNatStr ((assocGet m inst.value.name).join)) <;> simp [hd]
  refine ⟨main, ?_, ?_⟩
  · intro m hm hj
    rw [main m hm, hj]
    rfl
  · intro hm
    simp only [processEventChange, hm]

/-- C10 witness: with an empty identifier map the delete URL ends in
"undefined"; with an absent identifier map the task fails before any delete. -/
theorem removal_branch_unguarded_lookup_witness :
    (processEventChange clientAllOk stEmptyMap (.removal remInst)).deleteCalls
        = ["/rest/api/3/notificationscheme/1/notification/undefined"]
    ∧ processEventChange clientAllOk stNoMap (.removal remInst)
        = { stNoMap with errors := ["TypeError: notificationIds is undefined"] } :=
  ⟨(removal_branch_unguarded_lookup clientAllOk stEmptyMap remInst).2.1 [] rfl rfl,
   (removal_branch_unguarded_lookup clientAllOk stNoMap remInst).2.2 rfl⟩

/-- C7: against a target without the private protocol (a Data Center client)
the deploy returns every incoming change as leftover with an empty applied
list and an empty error list, never reaching the event processing, and
preDeploy and onDeploy leave every change untouched. -/
theorem dataCenter_short_circuit (rest : List FilterChange → FilterDeployResult)
    (changes : List FilterChange) :
    filterDeploy true rest changes
      = { leftoverChanges := changes, appliedChanges := [], errors := [] }
    ∧ preDeployFilter true changes = changes
    ∧ onDeployFilter true changes = changes :=
  ⟨rfl, rfl, rfl⟩

/- Round-trip lemmas for the preDeploy and onDeploy transforms. -/

theorem notifSetNone (l : List DNotification)
    (h : ∀ n ∈ l, n.notificationType = none) :
    l.map (fun n => { n with notificationType := none }) = l := by
  induction l with
  | nil => rfl
  | cons n rest ih
  =>
    have hn := h n (by simp)
    have hrest := ih (fun x hx => h x (by simp [hx]))
    obtain ⟨t, nt, p⟩ := n
    simp only at hn
    subst hn
    simp only [List.map_cons, hrest]

theorem notifRoundTrip (l : List DNotification)
    (h : ∀ n ∈ l, n.notificationType = none) :
    (l.map (fun n => if n.type.isSome then { n with notificationType := n.type } else n)).map
        (fun n => { n with notificationType := none }) = l := by
  induction l with
  | nil => rfl
  | cons n rest ih
  =>
    have hn := h n (by simp)
    have hrest := ih (fun x hx => h x (by simp [hx]))
    obtain ⟨t, nt, p⟩ := n
    simp only at hn
    subst hn
    cases ht : t.isSome <;> simp only [List.map_cons, hrest, ht, if_true, if_false,
      Bool.false_eq_true]

theorem eventRoundTrip (ev : DEvent) (hev : ev.event = none)
    (hn : ∀ n ∈ ev.notifications.getD [], n.notificationType = none) :
    onDeployEvent (preDeployEvent ev) = ev := by
  obtain ⟨et, evw, ns⟩ := ev
  simp only at hev
  subst hev
  cases ns with
  | none => cases et <;> simp [preDeployEvent, onDeployEvent]
  | some l
  =>
    simp only [Option.getD_some] at hn
    cases et with
    | none => simp [preDeployEvent, onDeployEvent, notifSetNone l hn]
    | some a => simp [preDeployEvent, onDeployEvent, notifRoundTrip l hn]

theorem eventsRoundTrip (evs : List DEvent)
    (h : ∀ ev ∈ evs, ev.event = none
        ∧ ∀ n ∈ ev.notifications.getD [], n.notificationType = none) :
    evs.map (fun ev => onDeployEvent (preDeployEvent ev)) = evs := by
  induction evs with
  | nil => rfl
  | cons ev rest ih
  =>
    obtain ⟨hev, hn⟩ := h ev (by simp)
    have hrest := ih (fun x hx => h x (by simp [hx]))
    simp only [List.map_cons, hrest, eventRoundTrip ev hev hn]

/-- C8: for an instance value in canonical declarative shape (no wire-only
event, notificationType, or schemeId fields), applying the preDeploy
transform and then the onDeploy transform restores the original values except
that the top-level id is coerced to its numeric form: every wire-only field
preDeploy adds (event on each scheme event, notificationType on each
notification, schemeId on removal and modification changes) is removed again
by onDeploy. -/
theorem preDeploy_onDeploy_roundtrip (kind : ChangeKind) (v : DSchemeValue)
    (h : canonicalShape v = true) :
    onDeployValue kind (preDeployValue kind v) = { v with id := some (jsNumber v.id) } := by
  obtain ⟨vid, vsid, vevs⟩ := v
  have h2 : vsid = none
      ∧ ∀ ev ∈ vevs.getD [], ev.event = none
          ∧ ∀ n ∈ ev.notifications.getD [], n.notificationType = none := by
    simpa [canonicalShape, List.all_eq_true, and_assoc] using h
  obtain ⟨hsid, hevs⟩ := h2
  subst hsid
  cases vevs with
  | none =>
    cases kind <;> simp [preDeployValue, onDeployValue, isRemovalOrModification]
  | some evs
  =>
    simp only [Option.getD_some] at hevs
    cases kind <;>
    · simp [preDeployValue, onDeployValue, isRemovalOrModification, List.map_map]
      exact eventsRoundTrip evs hevs

/-- C8 witness: the round trip on a concrete canonical scheme value turns the
string id "42" into the number 42 and leaves everything else unchanged. -/
theorem preDeploy_onDeploy_roundtrip_witness :
    onDeployValue .modification (preDeployValue .modification sampleCanonical)
      = { sampleCanonical with id := some (jsNumber sampleCanonical.id) } :=
  preDeploy_onDeploy_roundtrip .modification sampleCanonical (by decide)
